import Mathlib

/-!
Verification development for the Remote Element Addressing & Cross-Context
Invocation subsystem of browser-automator.

The definitions below are shallow embeddings of the TypeScript source:
* the page-context handle registry `ElementActions` with its element-path
  parser and bounded cache (src/self.ts),
* the locator classifier `isXPath` (src/self.ts) and the inline classifier
  used by the compiled `Page` methods (src/page.ts),
* the wait engine `waitFor` and its public wrappers (src/self.ts, Page
  methods of the extension build),
* the chunked file transfer of `Page.uploadFiles`.

Browser-host behavior (querySelector / XPath evaluation, DOM member access,
the chrome.scripting bridge transport) is outside the repository and is kept
abstract as function parameters of the model.
-/

namespace BrowserAutomator

/-- A live DOM node reference, abstracted to an identifier. Node identity in
the page context is modelled by equality of identifiers. -/
abbrev Node := Nat

/-- Abstract single-segment DOM resolution, the behavior of
`Self.getElement(selectors, contextNode, index)` (src/self.ts:91-99) as seen
by the registry. The context argument is `some n` for an element node and
`none` for the document root (the call site passes `element || document`);
the index is `none` when the parsed index was not a number (JS `NaN`).
The querySelector/XPath machinery itself is browser-host code, so it is a
parameter of the model. -/
abbrev DomFn := String → Option Node → Option Int → Option Node

/-! ## JS `Map` over element paths (ElementActions.elements, src/self.ts:255)

A JS `Map` iterates in insertion order; we model it as an insertion-ordered
association list (keys are unique because entries are only added on a cache
miss). -/

/-- The registry state: the entries of the `Map`, oldest first. -/
structure RegState where
  elements : List (String × Node)
deriving DecidableEq

/-- The registry at page load: `new Map()`. -/
def regEmpty : RegState := ⟨[]⟩

/-- `Map.prototype.get`. -/
def mapGet : List (String × Node) → String → Option Node
  | [], _ => none
  | e :: rest, q => if e.1 = q then some e.2 else mapGet rest q

/-- `Map.prototype.delete` (keys are unique, so deleting the first match is
exact). -/
def mapDelete : List (String × Node) → String → List (String × Node)
  | [], _ => []
  | e :: rest, k => if e.1 = k then rest else e :: mapDelete rest k

/-- `Map.prototype.set`: update in place when the key is present, append
otherwise. -/
def mapSet (l : List (String × Node)) (k : String) (v : Node) :
    List (String × Node) :=
  match mapGet l k with
  | some _ => l.map fun e => if e.1 = k then (k, v) else e
  | none => l ++ [(k, v)]

/-! ## Element-path parsing (src/self.ts:259-261)

`getElement` splits the path on the separator `→` and matches each segment
against the regex `(.+)⟮([0-9-]+)⟯$`, converting the captured index with
`Number(...)`. -/

/-- `elementPath.split('→')` on the underlying character list. -/
def splitArrow : List Char → List (List Char)
  | [] => [[]]
  | c :: rest =>
    if c = '→' then [] :: splitArrow rest
    else
      match splitArrow rest with
      | [] => [[c]]
      | seg :: segs => (c :: seg) :: segs

/-- A character matched by the regex class `[0-9-]`. -/
def isIdxChar (c : Char) : Bool := c.isDigit || c == '-'

/-- Decimal value of a digit string. -/
def digitsVal (cs : List Char) : Nat :=
  cs.foldl (fun a c => a * 10 + (c.toNat - '0'.toNat)) 0

/-- JS `Number(str)` restricted to strings over `[0-9-]`: an optional single
leading minus followed by at least one digit parses to an integer; anything
else (e.g. `1-2`, `--1`, `-`) is `NaN`, modelled as `none`. -/
def jsNumber (cs : List Char) : Option Int :=
  match cs with
  | '-' :: rest =>
    if !rest.isEmpty && rest.all Char.isDigit then
      some (-(Int.ofNat (digitsVal rest)))
    else none
  | _ =>
    if !cs.isEmpty && cs.all Char.isDigit then some (Int.ofNat (digitsVal cs))
    else none

/-- The regex match `(.+)⟮([0-9-]+)⟯$` on one segment: the segment must end
with `⟯`, preceded by a nonempty run over `[0-9-]`, preceded by `⟮`, with a
nonempty (greedy) selector before it. Since `⟮` is not in `[0-9-]`, the
backtracking match is deterministic. Returns (selector chars, index chars). -/
def segMatch (cs : List Char) : Option (List Char × List Char) :=
  match cs.reverse with
  | '⟯' :: r1 =>
    let dRev := r1.takeWhile isIdxChar
    if dRev.isEmpty then none
    else
      match r1.drop dRev.length with
      | '⟮' :: selRev =>
        if selRev.isEmpty then none
        else some (selRev.reverse, dRev.reverse)
      | _ => none
  | _ => none

/-- Parse one path segment into `(selectors, Number(index))`; `none` models
the TypeError thrown by destructuring a failed match. -/
def parseSegment (cs : List Char) : Option (String × Option Int) :=
  (segMatch cs).map fun m => (String.mk m.1, jsNumber m.2)

/-- Parse every segment of a split path; any failed segment aborts the call
(the JS loop throws at the first segment whose match is `null`). -/
def parseSegList : List (List Char) → Option (List (String × Option Int))
  | [] => some []
  | cs :: rest =>
    match parseSegment cs, parseSegList rest with
    | some seg, some segs => some (seg :: segs)
    | _, _ => none

/-- Segments of an element path, or `none` when a segment fails the regex. -/
def parseSegments (path : String) : Option (List (String × Option Int)) :=
  parseSegList (splitArrow path.data)

/-- The resolution loop of `ElementActions.getElement` (src/self.ts:259-263):
`element = getElement(selectors, element || document, index)` for each parsed
segment. A failed segment leaves `element` undefined, so the next segment
resolves against the document root; the loop never aborts early. -/
def chainResolve (dom : DomFn) :
    List (String × Option Int) → Option Node → Option Node
  | [], acc => acc
  | seg :: rest, acc => chainResolve dom rest (dom seg.1 acc seg.2)

/-- Result of one `ElementActions.getElement` call: the resolved element (if
any), the registry state after the call, and how many single-segment resolver
invocations were performed. -/
structure GetElemResult where
  element : Option Node
  state : RegState
  resolverCalls : Nat
deriving DecidableEq

namespace ElementActions

/-- The eviction part of src/self.ts:265: when `elements.size > 50`, delete
`elements.keys().next().value` — the oldest-inserted key; on an empty map the
key is `undefined` and the delete is a no-op. -/
def pruneIfFull (st : RegState) : List (String × Node) :=
  if st.elements.length > 50 then
    match st.elements.head? with
    | some e => mapDelete st.elements e.1
    | none => st.elements
  else st.elements

/-- The cache insertion of src/self.ts:264-267: evict if over the bound, then
`set` the new entry. -/
def insert (st : RegState) (path : String) (el : Node) : RegState :=
  ⟨mapSet (pruneIfFull st) path el⟩

/-- `ElementActions.getElement` (src/self.ts:256-269). `.error ()` models the
TypeError thrown when a segment does not match the path regex;
`resolverCalls` counts the `getElement(selectors, context, index)`
invocations performed by the loop. -/
def getElement (dom : DomFn) (st : RegState) (path : String) :
    Except Unit GetElemResult :=
  match mapGet st.elements path with
  | some el => .ok ⟨some el, st, 0⟩
  | none =>
    match parseSegments path with
    | none => .error ()
    | some segs =>
      match chainResolve dom segs none with
      | some el => .ok ⟨some el, insert st path el, segs.length⟩
      | none => .ok ⟨none, st, segs.length⟩

end ElementActions

/-- A JSON-ish JS value, enough to distinguish `undefined` from real
results. -/
inductive JsValue where
  | undefined
  | node (n : Node)
  | str (s : String)
  | num (n : Int)
  | boolean (b : Bool)
deriving DecidableEq

namespace ElementActions

/-- `ElementActions.handleCall` (src/self.ts:270-273):
`args ? element?.[key](...args) : element?.[key]()`. The member invocation on
a live node is host behavior, abstracted as `call` (which may itself throw).
Optional chaining yields `undefined`, with no invocation, when no element was
resolved. -/
def handleCall (dom : DomFn)
    (call : Node → String → Option (List JsValue) → Except Unit JsValue)
    (st : RegState) (path key : String) (args : Option (List JsValue)) :
    Except Unit (JsValue × RegState) :=
  match getElement dom st path with
  | .error () => .error ()
  | .ok r =>
    match r.element with
    | none => .ok (JsValue.undefined, r.state)
    | some e =>
      match call e key args with
      | .error () => .error ()
      | .ok v => .ok (v, r.state)

/-- `ElementActions.handleGet` (src/self.ts:274-277): `element?.[key]`;
property reads on a live node are abstracted as `getProp`. -/
def handleGet (dom : DomFn) (getProp : Node → String → JsValue)
    (st : RegState) (path key : String) : Except Unit (JsValue × RegState) :=
  match getElement dom st path with
  | .error () => .error ()
  | .ok r =>
    match r.element with
    | none => .ok (JsValue.undefined, r.state)
    | some e => .ok (getProp e key, r.state)

/-- `ElementActions.handleSet` (src/self.ts:278-281): `element[key] = value`
with no optional chaining — assigning through `undefined` throws a TypeError
(`.error ()`); on a resolved element the property write succeeds (the DOM
mutation itself is outside the model). -/
def handleSet (dom : DomFn) (st : RegState) (path _key : String)
    (_v : JsValue) : Except Unit RegState :=
  match getElement dom st path with
  | .error () => .error ()
  | .ok r =>
    match r.element with
    | none => .error ()
    | some _ => .ok r.state

end ElementActions

/-- A sequence of `ElementActions.getElement` calls against one registry; a
call that throws leaves the registry untouched. -/
def runPaths (dom : DomFn) (st : RegState) : List String → RegState
  | [] => st
  | p :: rest =>
    runPaths dom
      (match ElementActions.getElement dom st p with
       | .ok r => r.state
       | .error _ => st) rest

/-! ## Locator classification (src/self.ts:65-67 and the inline tests of the
compiled `Page` methods in src/page.ts)

`Self.isXPath` tests `/^(\/|\.\/|\()/`; the inline classifier replicated in
`Page.click`, `Page.elementExists`, `Page.execPasteTo`, `Page.triggerEvent`,
`Page.input` and `Page.uploadFiles` of src/page.ts tests `/^(\/|\.\/)/` —
without the `(` alternative. Each regex is an anchored alternation of literal
prefixes. -/

/-- Anchored literal match: does `cs` start with the pattern `p`? -/
def startsWithChars : List Char → List Char → Bool
  | [], _ => true
  | p :: ps, c :: cs => p == c && startsWithChars ps cs
  | _ :: _, [] => false

/-- `Self.isXPath` (src/self.ts:65-67): `expression.match(/^(\/|\.\/|\()/)`
viewed as a Bool (the call sites only use its truthiness). -/
def isXPath (s : String) : Bool :=
  startsWithChars ['/'] s.data || startsWithChars ['.', '/'] s.data ||
    startsWithChars ['('] s.data

/-- The inline classifier `selectors.match(/^(\/|\.\/)/)` used by the `Page`
methods of src/page.ts (e.g. `Page.click`, src/page.ts:505). -/
def pageInlineIsXPath (s : String) : Bool :=
  startsWithChars ['/'] s.data || startsWithChars ['.', '/'] s.data

/-! ## The wait engine (src/self.ts:209-219; `Page.waitFor` of the extension
build, part_001:322-334)

```
let value,
    tryLimit = options.tryLimit || <default>,
    delay = options.delay || <default>
while (!(value = await func(...args)) && tryLimit) { tryLimit--; await doDelay(delay) }
if (value) return value
else throw new Error('Waiting timed out...')
```

The predicate is modelled as `f : Nat → Option α` giving the (JS-truthy)
value returned by `func(...args)` at the k-th evaluation, `none` standing for
a falsy result. `Page.waitFor` additionally wraps a thrown error in a
"Glitch while waiting ..." context message via `handleGlitch` before
rethrowing; the wrapping preserves error-hood and is applied by the public
wrappers modelled below where it matters. -/

/-- Per-call wait options `{tryLimit?, delay?}`. -/
structure WaitOptions where
  tryLimit : Option Nat
  delay : Option Nat
deriving DecidableEq

/-- The wait-related page configuration (`src/others.ts`, scroll options
omitted as no waiting claim depends on them). -/
structure PageConfigurations where
  tryLimit : Nat
  delay : Nat
deriving DecidableEq

/-- `defaultPageConfigurations` (src/others.ts:19-23). -/
def defaultPageConfigurations : PageConfigurations := ⟨30, 1000⟩

/-- JS `options.x || default`: both `undefined` and `0` are falsy and fall
back to the default. -/
def jsOrNat (o : Option Nat) (d : Nat) : Nat :=
  match o with
  | some n => if n = 0 then d else n
  | none => d

/-- The retry loop of `waitFor`: evaluate; a truthy value stops the loop; a
falsy value with remaining budget delays once and retries (the loop guard
`!(value = await func(...args)) && tryLimit` always evaluates the predicate
once more even when the budget is already 0). Returns the final value
together with the number of evaluations and of delays performed. -/
def waitLoop {α : Type} (f : Nat → Option α) : Nat → Nat → Option α × Nat × Nat
  | 0, k => (f k, 1, 0)
  | b + 1, k =>
    match f k with
    | some v => (some v, 1, 0)
    | none =>
      let r := waitLoop f b (k + 1)
      (r.1, r.2.1 + 1, r.2.2 + 1)

/-- Observable outcome of one `waitFor` call: its result (value or thrown
timeout error), the number of predicate evaluations, the number of
inter-attempt delays, and the duration of each delay in milliseconds. -/
structure WaitRun (α : Type) where
  result : Except String α
  evals : Nat
  delays : Nat
  delayMsEach : Nat

namespace Page

/-- `waitFor` (src/self.ts:209-219, `Page.waitFor` part_001:322-334). -/
def waitFor {α : Type} (cfg : PageConfigurations) (f : Nat → Option α)
    (opts : WaitOptions) : WaitRun α :=
  let tl := jsOrNat opts.tryLimit cfg.tryLimit
  let d := jsOrNat opts.delay cfg.delay
  let r := waitLoop f tl 0
  { result :=
      match r.1 with
      | some v => .ok v
      | none => .error "Waiting timed out..."
    evals := r.2.1
    delays := r.2.2
    delayMsEach := d }

/-- `Page.waitForSelector` (part_001:365-378): waits on an existence check
(`presentAt k` = whether the element exists at the k-th poll) and rethrows a
timeout wrapped in a context message by `handleGlitch` (the page-URL suffix
appended by `handleGlitch` is host state and omitted). -/
def waitForSelector (cfg : PageConfigurations) (presentAt : Nat → Bool)
    (opts : WaitOptions) : Except String Unit :=
  match (waitFor cfg (fun k => if presentAt k then some true else none)
      opts).result with
  | .ok _ => .ok ()
  | .error e => .error ("Glitch while waiting for the CSS Selectors.\n" ++ e)

/-- The absence predicate evaluated by `Page.waitForElementMiss`
(part_001:436-442): truthy (`some true`) exactly when the element does not
resolve at the k-th poll. -/
def missCheck (resolveAt : Nat → Option Node) : Nat → Option Bool :=
  fun k =>
    match resolveAt k with
    | some _ => none
    | none => some true

/-- `Page.waitForElementMiss` (part_001:431-446): the wait outcome is mapped
through `.then(() => true).catch(() => false)`, so the caller receives a bare
boolean. -/
def waitForElementMiss (cfg : PageConfigurations)
    (resolveAt : Nat → Option Node) (opts : WaitOptions) : Bool :=
  match (waitFor cfg (missCheck resolveAt) opts).result with
  | .ok _ => true
  | .error _ => false

end Page

/-! ## Chunked file transfer (`Page.uploadFiles`, part_001:612-676)

Phase 2 splits each inline `dataUrl` payload into fixed-size chunks
(`substr(currentPosition, chunkSize)` with `chunkSize = 5242880`) and appends
each chunk, through one sequential bridge call per chunk, to the accumulating
`window.transmittedFiles[filesIndex][fileIndex].dataUrl` string, which phase
1 initialised to `''`. -/

/-- The fixed chunk size (part_001:639). -/
def chunkSize : Nat := 5242880

/-- The chunk loop (part_001:640-650): the list of chunk payloads, in the
order their bridge calls are issued. -/
def uploadChunks (data : List Char) : List (List Char) :=
  if h : data = [] then []
  else data.take chunkSize :: uploadChunks (data.drop chunkSize)
termination_by data.length
decreasing_by
  simp only [List.length_drop]
  have hp : 0 < data.length := List.length_pos.mpr h
  have hc : 0 < chunkSize := by norm_num [chunkSize]
  omega

/-! Controller-side control flow of `Page.uploadFiles`: the whole body is one
`try { manifest; chunk loop; materialize; revoke } catch { rethrow }` — each
phase is an awaited bridge call that may throw, and the
`URL.revokeObjectURL` sweep (part_001:674) is the last statement of the `try`
block, with no `finally`. -/

/-- Controller-side effects of one `uploadFiles` call, in order. -/
inductive UpEvent where
  | evalManifest
  | evalChunk
  | evalMaterialize
  | revokeUrls
deriving DecidableEq

/-- The sequential chunk-phase bridge calls (part_001:641-650): issue calls
in order; the first throwing call aborts the loop. Returns the issued events
and whether all calls succeeded. -/
def runChunkCalls : List Bool → List UpEvent × Bool
  | [] => ([], true)
  | ok :: rest =>
    if ok then
      let r := runChunkCalls rest
      (UpEvent.evalChunk :: r.1, r.2)
    else ([UpEvent.evalChunk], false)

/-- `Page.uploadFiles` control flow (part_001:612-676), parameterised by
which bridge calls succeed. A throwing call propagates out of the `try`
block (rethrown by the `catch` as a "Failed to upload files." glitch) and
skips every later statement, including the blob-URL revocation. -/
def uploadFilesRun (manifestOk : Bool) (chunkOks : List Bool)
    (materializeOk : Bool) : List UpEvent × Except String Unit :=
  if !manifestOk then ([UpEvent.evalManifest], .error "Failed to upload files.")
  else
    let c := runChunkCalls chunkOks
    if !c.2 then
      (UpEvent.evalManifest :: c.1, .error "Failed to upload files.")
    else if !materializeOk then
      (UpEvent.evalManifest :: c.1 ++ [UpEvent.evalMaterialize],
        .error "Failed to upload files.")
    else
      (UpEvent.evalManifest :: c.1 ++ [UpEvent.evalMaterialize, UpEvent.revokeUrls],
        .ok ())

/-! ## Concrete instances used by counterexamples and witnesses -/

/-- A document in which every selector resolves (to node 0) in every context. -/
def domAlways : DomFn := fun _ _ _ => some 0

/-- A document in which no selector ever resolves. -/
def domNever : DomFn := fun _ _ _ => none

/-- A document in which only the selector `"b"` resolves (to node 7). -/
def domBOnly : DomFn := fun sel _ _ => if sel = "b" then some 7 else none

/-- The single-segment element path `a…a⟮-1⟯` with `i + 1` letters `a`. -/
def aPath (i : Nat) : String :=
  String.mk (List.replicate (i + 1) 'a' ++ ['⟮', '-', '1', '⟯'])

/-- The first `n` of the paths `aPath i` — pairwise distinct, every one
resolving under `domAlways`. -/
def aPaths (n : Nat) : List String := (List.range n).map aPath

/-- A registry filled with 51 entries (the paths `aPath 0 … aPath 50`). -/
def st51 : RegState := ⟨(aPaths 51).map fun p => (p, 0)⟩

/-! ## Registry lemmas -/

theorem mapGet_append_of_none {l m : List (String × Node)} {q : String}
    (h : mapGet l q = none) : mapGet (l ++ m) q = mapGet m q := by
  induction l with
  | nil => simp
  | cons e rest ih =>
    by_cases he : e.1 = q
    · simp [mapGet, he] at h
    · simp only [mapGet, he, if_false, List.cons_append] at h ⊢
      exact ih h

theorem mapGet_mapDelete_of_none {l : List (String × Node)} {q k : String}
    (h : mapGet l q = none) : mapGet (mapDelete l k) q = none := by
  induction l with
  | nil => simpa [mapDelete] using h
  | cons e rest ih =>
    by_cases he : e.1 = q
    · simp [mapGet, he] at h
    · simp only [mapGet, he, if_false] at h
      by_cases hk : e.1 = k
      · simpa [mapDelete, hk] using h
      · simp only [mapDelete, hk, if_false, mapGet, he]
        exact ih h

theorem mapSet_of_none {l : List (String × Node)} {k : String} {v : Node}
    (h : mapGet l k = none) : mapSet l k v = l ++ [(k, v)] := by
  unfold mapSet
  rw [h]

theorem mapGet_pruneIfFull_of_none {st : RegState} {q : String}
    (h : mapGet st.elements q = none) : mapGet (ElementActions.pruneIfFull st) q = none := by
  unfold ElementActions.pruneIfFull
  split
  · split
    · exact mapGet_mapDelete_of_none h
    · exact h
  · exact h

theorem mapGet_insert_self {st : RegState} {path : String} {el : Node}
    (hmiss : mapGet st.elements path = none) :
    mapGet (ElementActions.insert st path el).elements path = some el := by
  unfold ElementActions.insert
  have hp := mapGet_pruneIfFull_of_none hmiss
  simp [mapSet_of_none hp, mapGet_append_of_none hp, mapGet]

theorem pruneIfFull_of_full {st : RegState} (hlen : st.elements.length > 50) :
    ElementActions.pruneIfFull st = st.elements.tail := by
  unfold ElementActions.pruneIfFull
  rw [if_pos hlen]
  cases hse : st.elements with
  | nil => rw [hse] at hlen; simp at hlen
  | cons e rest => simp [mapDelete]

theorem insert_of_miss_full {st : RegState} {path : String} {el : Node}
    (hmiss : mapGet st.elements path = none) (hlen : st.elements.length > 50) :
    (ElementActions.insert st path el).elements =
      st.elements.tail ++ [(path, el)] := by
  unfold ElementActions.insert
  rw [mapSet_of_none (mapGet_pruneIfFull_of_none hmiss),
    pruneIfFull_of_full hlen]

theorem insert_of_miss_small {st : RegState} {path : String} {el : Node}
    (hmiss : mapGet st.elements path = none)
    (hlen : ¬ st.elements.length > 50) :
    (ElementActions.insert st path el).elements =
      st.elements ++ [(path, el)] := by
  unfold ElementActions.insert ElementActions.pruneIfFull
  rw [if_neg hlen, mapSet_of_none hmiss]

theorem getElement_state_len {dom : DomFn} {st : RegState} {path : String}
    {r : GetElemResult} (h : ElementActions.getElement dom st path = .ok r)
    (hb : st.elements.length ≤ 51) : r.state.elements.length ≤ 51 := by
  unfold ElementActions.getElement at h
  cases hm : mapGet st.elements path with
  | some el =>
    simp only [hm, Except.ok.injEq] at h
    rw [← h]
    exact hb
  | none =>
    simp only [hm] at h
    cases hp : parseSegments path with
    | none => simp [hp] at h
    | some segs =>
      simp only [hp] at h
      cases hc : chainResolve dom segs none with
      | none =>
        simp only [hc, Except.ok.injEq] at h
        rw [← h]
        exact hb
      | some el =>
        simp only [hc, Except.ok.injEq] at h
        rw [← h]
        by_cases hlen : st.elements.length > 50
        · rw [insert_of_miss_full hm hlen]
          simp only [List.length_append, List.length_tail, List.length_cons,
            List.length_nil]
          omega
        · rw [insert_of_miss_small hm hlen]
          simp only [List.length_append, List.length_cons, List.length_nil]
          omega

theorem runPaths_len {dom : DomFn} :
    ∀ (ps : List String) (st : RegState), st.elements.length ≤ 51 →
      (runPaths dom st ps).elements.length ≤ 51 := by
  intro ps
  induction ps with
  | nil => intro st h; simpa [runPaths] using h
  | cons p rest ih =>
    intro st h
    simp only [runPaths]
    cases hge : ElementActions.getElement dom st p with
    | ok r =>
      simp only [hge]
      exact ih _ (getElement_state_len hge h)
    | error e =>
      simp only [hge]
      exact ih _ h

/-! ## Claim C1 -/

/-- Claim C1 (amended): the registry size never exceeds **51** entries (not
50: the code evicts only when `size > 50`, i.e. when the map already holds 51
entries), and an insertion performed while the registry holds 51 entries
first evicts exactly the oldest-inserted entry and then appends the new
one. -/
theorem registry_bound_and_eviction (dom : DomFn) :
    (∀ paths : List String,
      (runPaths dom regEmpty paths).elements.length ≤ 51) ∧
    (∀ (st : RegState) (path : String) (segs : List (String × Option Int))
      (el : Node), st.elements.length = 51 → mapGet st.elements path = none →
      parseSegments path = some segs → chainResolve dom segs none = some el →
      ElementActions.getElement dom st path =
        .ok ⟨some el, ⟨st.elements.tail ++ [(path, el)]⟩, segs.length⟩) := by
  constructor
  · intro paths
    exact runPaths_len paths regEmpty (by simp [regEmpty])
  · intro st path segs el hlen hmiss hparse hchain
    have hins : ElementActions.insert st path el =
        (⟨st.elements.tail ++ [(path, el)]⟩ : RegState) :=
      congrArg RegState.mk (insert_of_miss_full hmiss (by omega))
    unfold ElementActions.getElement
    simp only [hmiss, hparse, hchain, hins]

set_option maxRecDepth 40000 in
/-- Claim C1 counterexample: 51 successful resolutions of pairwise-distinct
element paths, starting from the empty registry, leave the registry with 51
entries — exceeding the claimed cap of 50. -/
theorem registry_exceeds_cap50 :
    (aPaths 51).Nodup ∧
    (runPaths domAlways regEmpty (aPaths 51)).elements.length = 51 ∧
    50 < (runPaths domAlways regEmpty (aPaths 51)).elements.length := by
  refine ⟨by decide, by decide, by decide⟩

/-- Witness for `registry_bound_and_eviction`: the bound on a concrete run,
and the eviction equation at a concrete registry of 51 entries. -/
theorem registry_bound_and_eviction_witness :
    (runPaths domAlways regEmpty (aPaths 3)).elements.length ≤ 51 ∧
    ElementActions.getElement domAlways st51 (aPath 51) =
      .ok ⟨some 0, ⟨st51.elements.tail ++ [(aPath 51, 0)]⟩, 1⟩ :=
  ⟨(registry_bound_and_eviction domAlways).1 (aPaths 3),
    (registry_bound_and_eviction domAlways).2 st51 (aPath 51)
      [(String.mk (List.replicate 52 'a'), some (-1))] 0
      (by decide) (by decide) (by decide) (by decide)⟩

/-! ## Claim C2 -/

/-- Claim C2 counterexample: in a document where the first segment `a⟮-1⟯`
fails to resolve but `b` resolves at the document root, the two-segment path
still resolves (the loop falls back to the document as context instead of
aborting), returns node 7, and caches the entry — contradicting "the whole
chain fails and nothing is cached". -/
theorem failed_segment_does_not_abort :
    ElementActions.getElement domBOnly regEmpty "a⟮-1⟯→b⟮-1⟯" =
      .ok ⟨some 7, ⟨[("a⟮-1⟯→b⟮-1⟯", 7)]⟩, 2⟩ ∧
    domBOnly "a" none (some (-1)) = none :=
  ⟨rfl, rfl⟩

/-- Claim C2 (amended): `getElement` fails and caches nothing exactly when
the **final** accumulated resolution is empty; a failed non-final segment
does not abort the chain — the following segments resolve against the
document root. -/
theorem unresolved_chain_not_cached (dom : DomFn) (st : RegState)
    (path : String) (segs : List (String × Option Int))
    (hmiss : mapGet st.elements path = none)
    (hparse : parseSegments path = some segs)
    (hchain : chainResolve dom segs none = none) :
    ElementActions.getElement dom st path = .ok ⟨none, st, segs.length⟩ ∧
    ∀ (sel : String) (idx : Option Int) (rest : List (String × Option Int))
      (ctx : Option Node), dom sel ctx idx = none →
      chainResolve dom ((sel, idx) :: rest) ctx = chainResolve dom rest none := by
  constructor
  · unfold ElementActions.getElement
    simp [hmiss, hparse, hchain]
  · intro sel idx rest ctx hfail
    simp [chainResolve, hfail]

/-- Witness for `unresolved_chain_not_cached` at the empty registry and a
document where nothing resolves. -/
theorem unresolved_chain_not_cached_witness :
    (ElementActions.getElement domNever regEmpty "a⟮-1⟯" =
      .ok ⟨none, regEmpty, 1⟩) ∧
    chainResolve domNever [("x", some (-1)), ("y", some 0)] none =
      chainResolve domNever [("y", some 0)] none :=
  ⟨(unresolved_chain_not_cached domNever regEmpty "a⟮-1⟯"
      [("a", some (-1))] (by decide) (by decide) (by decide)).1,
    (unresolved_chain_not_cached domNever regEmpty "a⟮-1⟯"
      [("a", some (-1))] (by decide) (by decide) (by decide)).2
      "x" (some (-1)) [("y", some 0)] none (by decide)⟩

/-! ## Claim C9 -/

/-- Claim C9: after a successful resolution of an element path, resolving the
same path again (with the document — `dom` — unchanged) returns the
node-identity-equal element from the registry cache, with zero resolver
invocations and an unchanged registry. -/
theorem repeat_resolution_cache_hit (dom : DomFn) (st : RegState)
    (path : String) (r : GetElemResult) (el : Node)
    (h : ElementActions.getElement dom st path = .ok r)
    (he : r.element = some el) :
    ElementActions.getElement dom r.state path = .ok ⟨some el, r.state, 0⟩ := by
  unfold ElementActions.getElement at h
  cases hm : mapGet st.elements path with
  | some el0 =>
    simp only [hm, Except.ok.injEq] at h
    rw [← h] at he ⊢
    simp only [GetElemResult.element] at he
    obtain rfl : el0 = el := by simpa using he
    unfold ElementActions.getElement
    simp [hm]
  | none =>
    simp only [hm] at h
    cases hp : parseSegments path with
    | none => simp [hp] at h
    | some segs =>
      simp only [hp] at h
      cases hc : chainResolve dom segs none with
      | none =>
        simp only [hc, Except.ok.injEq] at h
        rw [← h] at he
        simp at he
      | some el0 =>
        simp only [hc, Except.ok.injEq] at h
        rw [← h] at he ⊢
        simp only [GetElemResult.element] at he
        obtain rfl : el0 = el := by simpa using he
        unfold ElementActions.getElement
        simp [mapGet_insert_self hm]

/-- Witness for `repeat_resolution_cache_hit` at a concrete one-segment
path. -/
theorem repeat_resolution_cache_hit_witness :
    ElementActions.getElement domAlways ⟨[("a⟮-1⟯", 0)]⟩ "a⟮-1⟯" =
      .ok ⟨some 0, ⟨[("a⟮-1⟯", 0)]⟩, 0⟩ :=
  repeat_resolution_cache_hit domAlways regEmpty "a⟮-1⟯"
    ⟨some 0, ⟨[("a⟮-1⟯", 0)]⟩, 1⟩ 0 rfl rfl

/-! ## Claim C10 -/

/-- Claim C10: when an element path resolves to no element, `handleCall` and
`handleGet` return `undefined` without raising (optional chaining), while
`handleSet` raises a TypeError — property writes fail loudly on a dangling
path, method calls and property reads fail silently. -/
theorem handle_ops_on_unresolved_path (dom : DomFn)
    (call : Node → String → Option (List JsValue) → Except Unit JsValue)
    (getProp : Node → String → JsValue) (st : RegState) (path key : String)
    (args : Option (List JsValue)) (v : JsValue) (r : GetElemResult)
    (h : ElementActions.getElement dom st path = .ok r)
    (he : r.element = none) :
    ElementActions.handleCall dom call st path key args =
      .ok (JsValue.undefined, r.state) ∧
    ElementActions.handleGet dom getProp st path key =
      .ok (JsValue.undefined, r.state) ∧
    ElementActions.handleSet dom st path key v = .error () := by
  refine ⟨?_, ?_, ?_⟩
  · unfold ElementActions.handleCall
    simp [h, he]
  · unfold ElementActions.handleGet
    simp [h, he]
  · unfold ElementActions.handleSet
    simp [h, he]

/-- Witness for `handle_ops_on_unresolved_path` in a document where nothing
resolves. -/
theorem handle_ops_on_unresolved_path_witness :
    ElementActions.handleCall domNever (fun _ _ _ => .ok JsValue.undefined)
      regEmpty "a⟮-1⟯" "click" none = .ok (JsValue.undefined, regEmpty) ∧
    ElementActions.handleGet domNever (fun _ _ => JsValue.undefined)
      regEmpty "a⟮-1⟯" "click" = .ok (JsValue.undefined, regEmpty) ∧
    ElementActions.handleSet domNever regEmpty "a⟮-1⟯" "click"
      (JsValue.str "x") = .error () :=
  handle_ops_on_unresolved_path domNever (fun _ _ _ => .ok JsValue.undefined)
    (fun _ _ => JsValue.undefined) regEmpty "a⟮-1⟯" "click" none
    (JsValue.str "x") ⟨none, regEmpty, 1⟩ rfl rfl

/-! ## Wait-engine lemmas -/

theorem waitLoop_of_none {α : Type} {f : Nat → Option α}
    (h : ∀ k, f k = none) : ∀ b k, waitLoop f b k = (none, b + 1, b) := by
  intro b
  induction b with
  | zero => intro k; simp [waitLoop, h k]
  | succ b ih => intro k; simp [waitLoop, h k, ih (k + 1)]

theorem waitLoop_first_some {α : Type} {f : Nat → Option α} {v : α}
    (h : f 0 = some v) (b : Nat) : waitLoop f b 0 = (some v, 1, 0) := by
  cases b with
  | zero => simp [waitLoop, h]
  | succ b => simp [waitLoop, h]

theorem waitFor_result_of_none {α : Type} {cfg : PageConfigurations}
    {opts : WaitOptions} {f : Nat → Option α} (h : ∀ k, f k = none) :
    (Page.waitFor cfg f opts).result = .error "Waiting timed out..." := by
  simp [Page.waitFor, waitLoop_of_none h]

/-! ## Claim C3 -/

/-- Claim C3: with tryLimit 3, an always-falsy predicate is evaluated exactly
4 times (initial + 3 retries, with 3 inter-attempt delays) and the call fails
with the timeout error; a predicate truthy on its first evaluation yields its
value after exactly 1 evaluation and 0 delays. -/
theorem waitFor_retry_counts {α : Type} (cfg : PageConfigurations)
    (opts : WaitOptions) (f : Nat → Option α) :
    ((∀ k, f k = none) →
      (Page.waitFor cfg f ⟨some 3, opts.delay⟩).evals = 4 ∧
      (Page.waitFor cfg f ⟨some 3, opts.delay⟩).delays = 3 ∧
      (Page.waitFor cfg f ⟨some 3, opts.delay⟩).result =
        .error "Waiting timed out...") ∧
    (∀ v : α, f 0 = some v →
      (Page.waitFor cfg f opts).result = .ok v ∧
      (Page.waitFor cfg f opts).evals = 1 ∧
      (Page.waitFor cfg f opts).delays = 0) := by
  constructor
  · intro h
    have hl := waitLoop_of_none h
    simp [Page.waitFor, jsOrNat, hl]
  · intro v hv
    simp [Page.waitFor, waitLoop_first_some hv]

/-- Witness for `waitFor_retry_counts` at concrete predicates. -/
theorem waitFor_retry_counts_witness :
    ((Page.waitFor defaultPageConfigurations (fun _ => (none : Option Nat))
        ⟨some 3, some 0⟩).evals = 4 ∧
      (Page.waitFor defaultPageConfigurations (fun _ => (none : Option Nat))
        ⟨some 3, some 0⟩).delays = 3 ∧
      (Page.waitFor defaultPageConfigurations (fun _ => (none : Option Nat))
        ⟨some 3, some 0⟩).result = .error "Waiting timed out...") ∧
    ((Page.waitFor defaultPageConfigurations (fun _ => some 42)
        ⟨none, none⟩).result = .ok 42 ∧
      (Page.waitFor defaultPageConfigurations (fun _ => some 42)
        ⟨none, none⟩).evals = 1 ∧
      (Page.waitFor defaultPageConfigurations (fun _ => some 42)
        ⟨none, none⟩).delays = 0) :=
  ⟨(waitFor_retry_counts defaultPageConfigurations ⟨some 3, some 0⟩
      (fun _ => none)).1 (fun _ => rfl),
    (waitFor_retry_counts defaultPageConfigurations ⟨none, none⟩
      (fun _ => some 42)).2 42 rfl⟩

/-! ## Claim C8 -/

/-- Claim C8 counterexample: supplying `tryLimit: 0` and `delay: 0` does not
override the defaults — `options.x || default` treats 0 as falsy, so with the
default configuration (tryLimit 30, delay 1000) the call performs 31
evaluations with 1000 ms delays instead of the single evaluation and 0 ms
delays a 0-valued override would demand. -/
theorem zero_options_fall_back_to_defaults :
    (Page.waitFor defaultPageConfigurations (fun _ => (none : Option Nat))
      ⟨some 0, some 0⟩).evals = 31 ∧
    (Page.waitFor defaultPageConfigurations (fun _ => (none : Option Nat))
      ⟨some 0, some 0⟩).delayMsEach = 1000 :=
  ⟨rfl, rfl⟩

/-- Claim C8 (amended): nonzero per-call tryLimit/delay values override the
process-wide defaults, but the value 0 — and an absent option — falls back to
the default, because the merge uses the JS falsy-or. -/
theorem waitFor_option_overrides {α : Type} (cfg : PageConfigurations)
    (f : Nat → Option α) (h : ∀ k, f k = none) :
    (∀ n d : Nat, n ≠ 0 → d ≠ 0 →
      (Page.waitFor cfg f ⟨some n, some d⟩).evals = n + 1 ∧
      (Page.waitFor cfg f ⟨some n, some d⟩).delays = n ∧
      (Page.waitFor cfg f ⟨some n, some d⟩).delayMsEach = d) ∧
    ((Page.waitFor cfg f ⟨some 0, some 0⟩).evals = cfg.tryLimit + 1 ∧
      (Page.waitFor cfg f ⟨some 0, some 0⟩).delayMsEach = cfg.delay) ∧
    ((Page.waitFor cfg f ⟨none, none⟩).evals = cfg.tryLimit + 1 ∧
      (Page.waitFor cfg f ⟨none, none⟩).delayMsEach = cfg.delay) := by
  have hl := waitLoop_of_none h
  refine ⟨fun n d hn hd => ?_, ?_, ?_⟩
  · simp [Page.waitFor, jsOrNat, hn, hd, hl]
  · simp [Page.waitFor, jsOrNat, hl]
  · simp [Page.waitFor, jsOrNat, hl]

/-- Witness for `waitFor_option_overrides` at the default configuration. -/
theorem waitFor_option_overrides_witness :
    ((Page.waitFor defaultPageConfigurations (fun _ => (none : Option Nat))
        ⟨some 2, some 5⟩).evals = 3 ∧
      (Page.waitFor defaultPageConfigurations (fun _ => (none : Option Nat))
        ⟨some 2, some 5⟩).delays = 2 ∧
      (Page.waitFor defaultPageConfigurations (fun _ => (none : Option Nat))
        ⟨some 2, some 5⟩).delayMsEach = 5) ∧
    ((Page.waitFor defaultPageConfigurations (fun _ => (none : Option Nat))
        ⟨some 0, some 0⟩).evals = defaultPageConfigurations.tryLimit + 1 ∧
      (Page.waitFor defaultPageConfigurations (fun _ => (none : Option Nat))
        ⟨some 0, some 0⟩).delayMsEach = defaultPageConfigurations.delay) :=
  ⟨(waitFor_option_overrides defaultPageConfigurations (fun _ => none)
      (fun _ => rfl)).1 2 5 (by decide) (by decide),
    (waitFor_option_overrides defaultPageConfigurations (fun _ => none)
      (fun _ => rfl)).2.1⟩

/-! ## Claim C4 -/

/-- Claim C4 counterexample: on a page whose element never disappears, the
underlying waitFor call fails with the distinct timeout error, yet the public
`Page.waitForElementMiss` returns the bare boolean `false` — the timeout
cause is swallowed by its `.then(() => true).catch(() => false)`. -/
theorem waitForElementMiss_swallows_timeout :
    (Page.waitFor defaultPageConfigurations (Page.missCheck fun _ => some 0)
      ⟨some 3, some 0⟩).result = .error "Waiting timed out..." ∧
    Page.waitForElementMiss defaultPageConfigurations (fun _ => some 0)
      ⟨some 3, some 0⟩ = false :=
  ⟨rfl, rfl⟩

/-- Claim C4 (amended): when the retry budget is exhausted, `waitFor` raises
the distinct "Waiting timed out..." error and `Page.waitForSelector`
propagates it (wrapped in a context message), but `Page.waitForElementMiss`
maps the outcome through then/catch and hands its caller the bare boolean
`false`, swallowing the timeout cause. -/
theorem wait_timeout_surfacing (cfg : PageConfigurations) (opts : WaitOptions)
    (resolveAt : Nat → Option Node) (presentAt : Nat → Bool)
    (hres : ∀ k, (resolveAt k).isSome = true)
    (habs : ∀ k, presentAt k = false) :
    Page.waitForSelector cfg presentAt opts =
      .error ("Glitch while waiting for the CSS Selectors.\n" ++
        "Waiting timed out...") ∧
    Page.waitForElementMiss cfg resolveAt opts = false := by
  constructor
  · unfold Page.waitForSelector
    rw [waitFor_result_of_none (fun k => by simp [habs k])]
  · unfold Page.waitForElementMiss
    have hnone : ∀ k, Page.missCheck resolveAt k = none := by
      intro k
      have hk := hres k
      cases hr : resolveAt k with
      | none => rw [hr] at hk; simp at hk
      | some n => simp [Page.missCheck, hr]
    rw [waitFor_result_of_none hnone]

/-- Witness for `wait_timeout_surfacing`. -/
theorem wait_timeout_surfacing_witness :
    Page.waitForSelector defaultPageConfigurations (fun _ => false)
      ⟨some 2, some 0⟩ =
      .error ("Glitch while waiting for the CSS Selectors.\n" ++
        "Waiting timed out...") ∧
    Page.waitForElementMiss defaultPageConfigurations (fun _ => some 0)
      ⟨some 2, some 0⟩ = false :=
  wait_timeout_surfacing defaultPageConfigurations ⟨some 2, some 0⟩
    (fun _ => some 0) (fun _ => false) (fun _ => rfl) (fun _ => rfl)

/-! ## Chunk-transfer lemmas -/

theorem foldl_append_eq (cs : List (List Char)) (acc : List Char) :
    cs.foldl (· ++ ·) acc = acc ++ cs.foldl (· ++ ·) [] := by
  induction cs generalizing acc with
  | nil => simp
  | cons c rest ih =>
    simp only [List.foldl_cons, List.nil_append]
    rw [ih (acc ++ c), ih c, List.append_assoc]

theorem uploadChunks_flatten :
    ∀ (n : Nat) (l : List Char), l.length ≤ n →
      (uploadChunks l).foldl (· ++ ·) [] = l := by
  intro n
  induction n with
  | zero =>
    intro l hl
    have he : l = [] := List.eq_nil_of_length_eq_zero (Nat.le_zero.mp hl)
    subst he
    simp [uploadChunks]
  | succ n ih =>
    intro l hl
    by_cases hne : l = []
    · subst hne; simp [uploadChunks]
    · rw [uploadChunks, dif_neg hne]
      simp only [List.foldl_cons, List.nil_append]
      rw [foldl_append_eq, ih (l.drop chunkSize) ?_, List.take_append_drop]
      have h1 : 0 < l.length := List.length_pos.mpr hne
      have h2 : 0 < chunkSize := by norm_num [chunkSize]
      simp only [List.length_drop]
      omega

theorem uploadChunks_sizes :
    ∀ (n : Nat) (l : List Char), l.length ≤ n →
      ∀ c ∈ uploadChunks l, c.length ≤ chunkSize := by
  intro n
  induction n with
  | zero =>
    intro l hl c hc
    have he : l = [] := List.eq_nil_of_length_eq_zero (Nat.le_zero.mp hl)
    subst he
    simp [uploadChunks] at hc
  | succ n ih =>
    intro l hl c hc
    by_cases hne : l = []
    · subst hne; simp [uploadChunks] at hc
    · rw [uploadChunks, dif_neg hne] at hc
      rcases List.mem_cons.mp hc with h | h
      · subst h; exact List.length_take_le _ _
      · refine ih (l.drop chunkSize) ?_ c h
        have h1 : 0 < l.length := List.length_pos.mpr hne
        have h2 : 0 < chunkSize := by norm_num [chunkSize]
        simp only [List.length_drop]
        omega

/-! ## Claim C5 -/

/-- Claim C5: for an inline payload of length 5242880 · 2 + 100, the chunk
phase issues exactly 3 chunk-append bridge calls, each carrying at most
5242880 characters, and the sequential appends into the page-context table
(starting from the empty accumulator) reassemble the payload exactly. -/
theorem uploadFiles_chunking (data : List Char)
    (h : data.length = 2 * chunkSize + 100) :
    (uploadChunks data).length = 3 ∧
    (∀ c ∈ uploadChunks data, c.length ≤ chunkSize) ∧
    (uploadChunks data).foldl (· ++ ·) [] = data := by
  have hcs : chunkSize = 5242880 := rfl
  refine ⟨?_, fun c hc => uploadChunks_sizes data.length data le_rfl c hc,
    uploadChunks_flatten data.length data le_rfl⟩
  have h1 : data ≠ [] := by
    intro e
    rw [e] at h
    simp [hcs] at h
  have hd1 : (data.drop chunkSize).length = chunkSize + 100 := by
    simp only [List.length_drop, h]
    omega
  have h2 : data.drop chunkSize ≠ [] := by
    intro e
    rw [e] at hd1
    simp at hd1
  have hd2 : ((data.drop chunkSize).drop chunkSize).length = 100 := by
    simp only [List.length_drop, hd1]
    omega
  have h3 : (data.drop chunkSize).drop chunkSize ≠ [] := by
    intro e
    rw [e] at hd2
    simp at hd2
  have hd3 : ((data.drop chunkSize).drop chunkSize).drop chunkSize = [] := by
    apply List.eq_nil_of_length_eq_zero
    simp only [List.length_drop, hd2]
    omega
  rw [uploadChunks, dif_neg h1, uploadChunks, dif_neg h2, uploadChunks,
    dif_neg h3, hd3]
  simp [uploadChunks]

/-- Witness for `uploadFiles_chunking` on a concrete payload of the stated
length. -/
theorem uploadFiles_chunking_witness :
    (uploadChunks (List.replicate (2 * chunkSize + 100) 'a')).length = 3 ∧
    (∀ c ∈ uploadChunks (List.replicate (2 * chunkSize + 100) 'a'),
      c.length ≤ chunkSize) ∧
    (uploadChunks (List.replicate (2 * chunkSize + 100) 'a')).foldl
      (· ++ ·) [] = List.replicate (2 * chunkSize + 100) 'a' :=
  uploadFiles_chunking _ (by simp)

/-! ## Claim C6 -/

theorem revoke_not_mem_runChunkCalls (l : List Bool) :
    UpEvent.revokeUrls ∉ (runChunkCalls l).1 := by
  induction l with
  | nil => simp [runChunkCalls]
  | cons ok rest ih =>
    cases ok with
    | false => simp [runChunkCalls]
    | true => simp [runChunkCalls, ih]

theorem runChunkCalls_allOk (l : List Bool) :
    (runChunkCalls l).2 = l.all (fun b => b) := by
  induction l with
  | nil => simp [runChunkCalls]
  | cons ok rest ih => cases ok <;> simp [runChunkCalls, ih]

/-- Claim C6 counterexample: when the materialize-phase bridge call throws,
the whole uploadFiles call rethrows and the statement revoking the staged
blob URLs — the last statement of the try block, with no finally — is never
reached. -/
theorem failed_materialize_skips_revocation :
    (uploadFilesRun true [true, true, true] false).2 =
      .error "Failed to upload files." ∧
    UpEvent.revokeUrls ∉ (uploadFilesRun true [true, true, true] false).1 :=
  ⟨rfl, by decide⟩

/-- Claim C6 (amended): the controller-side blob URLs are revoked exactly
when all bridge phases (manifest, every chunk append, materialize) complete
without throwing — which is also exactly when the whole call succeeds; any
throwing phase propagates out of the try block and the revocation is
skipped. -/
theorem uploadFiles_revocation (manifestOk : Bool) (chunkOks : List Bool)
    (materializeOk : Bool) :
    (UpEvent.revokeUrls ∈ (uploadFilesRun manifestOk chunkOks materializeOk).1 ↔
      manifestOk = true ∧ chunkOks.all (fun b => b) = true ∧
        materializeOk = true) ∧
    ((uploadFilesRun manifestOk chunkOks materializeOk).2 = .ok () ↔
      manifestOk = true ∧ chunkOks.all (fun b => b) = true ∧
        materializeOk = true) := by
  have hmem := revoke_not_mem_runChunkCalls chunkOks
  have hok := runChunkCalls_allOk chunkOks
  cases manifestOk with
  | false => simp [uploadFilesRun]
  | true =>
    cases hc2 : (runChunkCalls chunkOks).2 with
    | false =>
      rw [hc2] at hok
      cases materializeOk <;>
        simp [uploadFilesRun, hc2, ← hok, hmem]
    | true =>
      rw [hc2] at hok
      cases materializeOk <;>
        simp [uploadFilesRun, hc2, ← hok, hmem]

/-! ## Claim C7 -/

theorem startsWithChars_take (p : List Char) :
    ∀ cs ds : List Char, cs.take p.length = ds.take p.length →
      startsWithChars p cs = startsWithChars p ds := by
  induction p with
  | nil => intro cs ds _; rfl
  | cons ph pt ih =>
    intro cs ds h
    cases cs with
    | nil =>
      cases ds with
      | nil => rfl
      | cons d dt => simp at h
    | cons c ct =>
      cases ds with
      | nil => simp at h
      | cons d dt =>
        simp only [List.length_cons, List.take_succ_cons,
          List.cons.injEq] at h
        obtain ⟨rfl, h2⟩ := h
        simp only [startsWithChars]
        rw [ih ct dt h2]

/-- Claim C7 counterexample: the locator `(//div)[1]` is classified as an
XPath expression by Self.isXPath (whose regex includes the `(` alternative)
but as a CSS selector by the inline test of the compiled Page.click — the
resolving operations do not share one classification function. -/
theorem paren_locator_classified_inconsistently :
    isXPath "(//div)[1]" = true ∧ pageInlineIsXPath "(//div)[1]" = false :=
  ⟨rfl, rfl⟩

/-- Claim C7 (amended): both classifiers are pure functions of the first two
characters of the locator; Self.isXPath classifies `/`, `./` and `(` prefixed
locators as XPath while the inline classifier of the compiled Page methods
accepts only `/` and `./`; the two agree on every locator whose first
character is not `(`. -/
theorem locator_classification :
    (∀ s t : String, s.data.take 2 = t.data.take 2 →
      isXPath s = isXPath t ∧ pageInlineIsXPath s = pageInlineIsXPath t) ∧
    (∀ s : String, s.data.head? ≠ some '(' →
      pageInlineIsXPath s = isXPath s) := by
  constructor
  · intro s t h
    have h1 : s.data.take 1 = t.data.take 1 := by
      have h2 := congrArg (List.take 1) h
      simpa [List.take_take] using h2
    have e1 := startsWithChars_take ['/'] s.data t.data (by simpa using h1)
    have e2 := startsWithChars_take ['.', '/'] s.data t.data (by simpa using h)
    have e3 := startsWithChars_take ['('] s.data t.data (by simpa using h1)
    exact ⟨by simp [isXPath, e1, e2, e3],
      by simp [pageInlineIsXPath, e1, e2]⟩
  · intro s h
    unfold isXPath pageInlineIsXPath
    cases hd : s.data with
    | nil => rfl
    | cons c ct =>
      have hc : ¬ c = '(' := by
        intro e
        apply h
        rw [hd, e]
        rfl
      have hb : ('(' == c) = false := by
        rw [beq_eq_false_iff_ne]
        exact fun e => hc e.symm
      simp [startsWithChars, hb]

/-- Witness for `locator_classification` at concrete locators. -/
theorem locator_classification_witness :
    (isXPath "/abc" = isXPath "/abd" ∧
      pageInlineIsXPath "/abc" = pageInlineIsXPath "/abd") ∧
    pageInlineIsXPath "div.item" = isXPath "div.item" :=
  ⟨locator_classification.1 "/abc" "/abd" (by decide),
    locator_classification.2 "div.item" (by decide)⟩

end BrowserAutomator
